import Mathlib

/-!
Verification of `p-debounce` (`src/index.js`) against its specification.

The source exports two wrappers:

* `pDebounce(functionToDebounce, wait, options)` — the windowed debouncer
  ("Component A").  Per-wrap mutable state: `leadingValue`, `timeout`,
  `promiseHandlers`, plus the abort listener attached to `options.signal`.
* `pDebounce.promise(function_, options)` — the in-flight coalescer
  ("Component B").  Per-wrap mutable state: `currentPromise`, `queuedCall`.

We embed each wrapper as a deterministic state machine.  A state records the
per-wrap mutable variables of the JavaScript closure, the executions
currently suspended in an `await`, and two observation logs: `settled`
(which caller promises have settled, in settlement order, and with what
outcome) and `invocations` (the argument lists the producer has been applied
to, in order).  Events model the maximal synchronous runs of the event loop:
a call to the wrapped function runs the synchronous body of the call (the
promise executor for Component A, including the prefix of the leading IIFE
up to its first suspension; the function body up to the first suspension for
Component B); `timerFire` runs the `setTimeout` callback up to its first
suspension point; `leadingSettle i` / `delayedSettle i` resume a suspended
leading IIFE or timer callback when its producer invocation settles; `abort`
fires the abort signal; `settle` (Component B) resumes the async body after
one producer invocation settles.

A Component A producer is modelled as `fn : α → ProducerResult β ε`: either
`throws e` (a synchronous throw at application time, caught by the
surrounding `try` before any suspension, so its consequences land in the
same synchronous run as the application) or `asyncOut o` (a normal return
whose eventual outcome `o` is observed asynchronously).  The source's
`try { ... await fn(...) } catch` funnels both failure modes into one
channel — `prOutcome` — but their timing differs, and the model keeps that
distinction.  A Component B producer is `α → Except ε β`, its eventual
outcome, which suffices there: the wrapper is an `async function`, so the
caller's promise settles asynchronously in every case.

The abort listener needs care: all bursts of one wrapped callable share the
single `onAbort` function, registered with `addEventListener(..., {once:
true})` (line 83) — a second registration while one exists is deduplicated
by EventTarget — and removed unconditionally by `removeEventListener` at the
end of the timer callback (line 64), which runs only after the producer
settles.  A single `listenerAttached` boolean therefore models the one
effective registration, and a burst that begins while an earlier timer
callback is still awaiting its producer can have its registration stripped
when that callback finishes.
-/

namespace PDebounce

/-- A JavaScript number as far as `Number.isFinite` is concerned: finite
numbers are modelled as rationals (covering zero, negative and fractional
values); the non-finite values are `NaN` and the two infinities. -/
inductive JSNum : Type where
  | finite (q : ℚ)
  | nan
  | posInf
  | negInf
deriving DecidableEq

/-- Model of `Number.isFinite`. -/
def isFiniteJS : JSNum → Bool
  | .finite _ => true
  | _ => false

/-- The error thrown at wrap time (`new TypeError(...)` in the source). -/
inductive JSError : Type where
  | typeError (msg : String)
deriving DecidableEq

/-- Wrap-time options of the windowed debouncer: `options.before` and whether
an `options.signal` is attached. -/
structure ConfigA : Type where
  before : Bool
  hasSignal : Bool
deriving DecidableEq

instance {ε β : Type} [DecidableEq ε] [DecidableEq β] : DecidableEq (Except ε β)
  | .ok a, .ok b =>
    if h : a = b then .isTrue (by rw [h]) else .isFalse (by simp [h])
  | .ok _, .error _ => .isFalse (by simp)
  | .error _, .ok _ => .isFalse (by simp)
  | .error e, .error f =>
    if h : e = f then .isTrue (by rw [h]) else .isFalse (by simp [h])

/-- Behaviour of one application of the wrapped producer.  JavaScript
distinguishes a synchronous throw at application time (`throws`) from a
normal return whose eventual value or rejection is only observed
asynchronously, after at least a microtask (`asyncOut`; this covers both a
returned promise and a plain returned value, which `await` still defers).
The distinction matters for settlement timing: a synchronous throw is caught
by the surrounding `try` before the code reaches any suspension point. -/
inductive ProducerResult (β ε : Type) : Type where
  | throws (e : ε)
  | asyncOut (o : Except ε β)
deriving DecidableEq

/-- The outcome a producer application eventually delivers, regardless of
whether it threw synchronously or settled asynchronously — the source's
`try { ... await fn(...) } catch` funnels both into one channel. -/
def prOutcome : ProducerResult β ε → Except ε β
  | .throws e => .error e
  | .asyncOut o => o

/-- The wrapped callable produced by a successful `pDebounce(fn, wait, options)`
call: the configuration and producer captured by the returned closure. -/
structure Debounced (α β ε : Type) : Type where
  cfg : ConfigA
  fn : α → ProducerResult β ε

/-- The wrap call `pDebounce(functionToDebounce, wait, options)` itself: it validates `wait`
with `Number.isFinite` and either throws a `TypeError` or returns the wrapped
callable (src/index.js lines 1-4). -/
def pDebounceMk (fn : α → ProducerResult β ε) (wait : JSNum) (cfg : ConfigA) :
    Except JSError (Debounced α β ε) :=
  if isFiniteJS wait then
    .ok ⟨cfg, fn⟩
  else
    .error (.typeError "Expected wait to be a finite number")

/-- Outcome of a settled caller promise of the windowed debouncer.  `resolved
none` is a resolution with the JavaScript value `undefined` (which happens in
`before` mode when `leadingValue` is unset). -/
inductive AOutcome (β ε : Type) : Type where
  | resolved (v : Option β)
  | rejected (e : ε)
deriving DecidableEq


/-- The outcome a caller receives from a producer outcome: `resolve(result)`
on success, `reject(error)` on failure. -/
def aoutcomeOf : Except ε β → AOutcome β ε
  | .ok v => .resolved (some v)
  | .error e => .rejected e


/-- State of one wrapped windowed debouncer (the closure variables of
`pDebounce`, src/index.js lines 6-8, plus the abort-listener registration,
the in-flight asynchronous executions, and the observation logs).  Caller
promises are identified by `Nat` ids. -/
structure StateA (α β ε : Type) : Type where
  /-- Field `leadingValue`: cached result of the leading-edge invocation. -/
  leadingValue : Option β
  /-- Field `timeout`: holds `some args` iff a timer is pending; `args` are the arguments
  captured by the `setTimeout` closure of the call that scheduled it. -/
  timeoutArgs : Option α
  /-- Field `promiseHandlers`: caller ids of the waiting resolve/reject pairs,
  in push order. -/
  promiseHandlers : List Nat
  /-- The leading-edge invocations in flight (async IIFEs of lines 69-76
  suspended in their `await`), oldest first: the caller that started each and
  the eventual outcome its producer application will deliver. -/
  pendingLeading : List (Nat × Except ε β)
  /-- The non-leading timer callbacks suspended in `await fn(...)` (line 49),
  oldest first: the handler list each captured at firing and the eventual
  outcome its producer application will deliver. -/
  pendingDelayed : List (List Nat × Except ε β)
  /-- Whether `onAbort` is currently registered on the signal.  All bursts
  share the one `onAbort` function, so there is at most one effective
  registration: `addEventListener` with the same listener is deduplicated,
  and `removeEventListener` (line 64) strips whatever registration exists. -/
  listenerAttached : Bool
  /-- Holds `some reason` once the attached signal has aborted. -/
  signalAborted : Option ε
  /-- Log of settled caller promises, in settlement order. -/
  settled : List (Nat × AOutcome β ε)
  /-- Log of argument lists the producer has been applied to, in order. -/
  invocations : List α
deriving DecidableEq

/-- The state of a freshly wrapped debouncer. -/
def initA : StateA α β ε :=
  { leadingValue := none
    timeoutArgs := none
    promiseHandlers := []
    pendingLeading := []
    pendingDelayed := []
    listenerAttached := false
    signalAborted := none
    settled := []
    invocations := [] }

/-- Events of the windowed debouncer's event loop. -/
inductive EventA (α ε : Type) : Type where
  /-- A call to the wrapped function by caller `c` with arguments `args`:
  runs the promise executor (src/index.js lines 26-86) synchronously,
  including — on the leading path — the synchronous prefix of the async IIFE
  up to its first suspension point. -/
  | call (c : Nat) (args : α)
  /-- The pending `setTimeout` callback fires and runs up to its first
  suspension point (lines 39-49).  In `before` mode and for a synchronously
  throwing producer there is no suspension, so the whole callback runs; for
  a producer observed asynchronously the callback suspends in `await` and
  finishes at a later `delayedSettle`.  A no-op when no timer is pending (a
  cleared timer never fires). -/
  | timerFire
  /-- The `i`-th in-flight leading-edge producer invocation settles (oldest
  first), resuming its IIFE (lines 71-75).  A no-op for an out-of-range
  index. -/
  | leadingSettle (i : Nat)
  /-- The `i`-th in-flight non-leading timer callback's producer invocation
  settles (oldest first), resuming the callback after its `await`: settle
  the captured handlers, clear `leadingValue`, remove the abort listener
  (lines 51-64).  A no-op for an out-of-range index. -/
  | delayedSettle (i : Nat)
  /-- The attached signal aborts with reason `r`, running `onAbort` if the
  listener is registered (lines 10-23).  A no-op when no signal is attached
  or the signal has already aborted (a signal fires at most once). -/
  | abort (r : ε)

/-- One step of the windowed debouncer, transcribed from src/index.js. -/
def stepA (cfg : ConfigA) (fn : α → ProducerResult β ε) (s : StateA α β ε) :
    EventA α ε → StateA α β ε
  | .call c args =>
    -- `options.signal?.throwIfAborted()` — check if already aborted (lines 28-33)
    match (if cfg.hasSignal then s.signalAborted else none) with
    | some r => { s with settled := s.settled ++ [(c, .rejected r)] }
    | none =>
      -- `const shouldCallNow = options.before && !timeout` (line 35)
      let shouldCallNow := cfg.before && s.timeoutArgs.isNone
      -- `clearTimeout(timeout); timeout = setTimeout(...)` (lines 37-65)
      let s1 := { s with timeoutArgs := some args }
      if shouldCallNow then
        -- leading edge (lines 67-76): the async IIFE applies the producer
        -- synchronously, within this very call
        match fn args with
        | .throws e =>
          -- a synchronous throw is caught before any suspension point, so
          -- `reject(error)` (line 74) runs inside the call that created the
          -- promise
          { s1 with
              invocations := s1.invocations ++ [args]
              settled := s1.settled ++ [(c, .rejected e)] }
        | .asyncOut o =>
          -- the IIFE suspends in `await`; settlement is a later
          -- `leadingSettle` event
          { s1 with
              invocations := s1.invocations ++ [args]
              pendingLeading := s1.pendingLeading ++ [(c, o)] }
      else
        -- `promiseHandlers.push({resolve, reject})` (line 79) and attach the
        -- abort listener on the first handler of the batch (lines 82-84);
        -- re-adding the shared `onAbort` is deduplicated by EventTarget
        let handlers := s1.promiseHandlers ++ [c]
        { s1 with
            promiseHandlers := handlers
            listenerAttached :=
              if cfg.hasSignal && handlers.length == 1 then true
              else s1.listenerAttached }
  | .timerFire =>
    match s.timeoutArgs with
    | none => s
    | some args =>
      -- lines 39-46: clear the timer, capture the handler list, reset it
      let handlers := s.promiseHandlers
      let base := { s with
        timeoutArgs := none
        promiseHandlers := [] }
      if cfg.before then
        -- `options.before ? leadingValue : ...` evaluates no `await`, so the
        -- whole callback runs without suspension: settle the captured
        -- handlers with the cached value, clear it, remove the listener
        { base with
            settled := s.settled ++
              handlers.map (fun c => (c, AOutcome.resolved s.leadingValue))
            leadingValue := none
            listenerAttached := false }
      else
        match fn args with
        | .throws e =>
          -- a synchronous throw reaches the `catch` before any suspension:
          -- the callback still runs to completion in one go
          { base with
              invocations := s.invocations ++ [args]
              settled := s.settled ++
                handlers.map (fun c => (c, AOutcome.rejected e))
              leadingValue := none
              listenerAttached := false }
        | .asyncOut o =>
          -- `await fn(...)` suspends; the rest of the callback (settle
          -- handlers, clear `leadingValue`, remove the listener) runs at the
          -- matching `delayedSettle`
          { base with
              invocations := s.invocations ++ [args]
              pendingDelayed := s.pendingDelayed ++ [(handlers, o)] }
  | .leadingSettle i =>
    match s.pendingLeading[i]? with
    | none => s
    | some (c, .ok v) =>
      -- `leadingValue = await fn(...); resolve(leadingValue)` (lines 71-72)
      { s with
          pendingLeading := s.pendingLeading.eraseIdx i
          leadingValue := some v
          settled := s.settled ++ [(c, .resolved (some v))] }
    | some (c, .error e) =>
      -- `catch (error) { reject(error) }` (lines 73-75); `leadingValue`
      -- keeps its previous value
      { s with
          pendingLeading := s.pendingLeading.eraseIdx i
          settled := s.settled ++ [(c, .rejected e)] }
  | .delayedSettle i =>
    match s.pendingDelayed[i]? with
    | none => s
    | some (handlers, o) =>
      -- resume the timer callback after its `await` (lines 51-64): settle
      -- every captured handler with the one outcome, clear `leadingValue`,
      -- and remove the shared abort listener — even if a later burst is
      -- relying on that registration
      { s with
          pendingDelayed := s.pendingDelayed.eraseIdx i
          settled := s.settled ++
            handlers.map (fun c => (c, aoutcomeOf o))
          leadingValue := none
          listenerAttached := false }
  | .abort r =>
    if cfg.hasSignal then
      match s.signalAborted with
      | some _ => s
      | none =>
        let s1 := { s with signalAborted := some r }
        if s.listenerAttached then
          -- `onAbort` (lines 10-23): clear the timer, reject every waiting
          -- handler with the abort reason, reset the handler list; the
          -- `{once: true}` registration removes the listener
          { s1 with
              timeoutArgs := none
              listenerAttached := false
              promiseHandlers := []
              settled := s.settled ++
                s.promiseHandlers.map (fun c => (c, AOutcome.rejected r)) }
        else s1
    else s

/-- Run the windowed debouncer over a list of events. -/
def runA (cfg : ConfigA) (fn : α → ProducerResult β ε) (s : StateA α β ε)
    (es : List (EventA α ε)) : StateA α β ε :=
  es.foldl (stepA cfg fn) s

/-- A burst of calls as an event list: `callsOf [(c1,a1),...]` is caller `c1`
calling with `a1`, then `c2` with `a2`, and so on. -/
def callsOf (ps : List (Nat × α)) : List (EventA α ε) :=
  ps.map fun p => .call p.1 p.2

/-- The arguments of the last call of `ps`, or `dflt` when `ps` is empty
(the value of the pending timer's captured arguments after the calls). -/
def lastArgOf (ps : List (Nat × α)) (dflt : Option α) : Option α :=
  match ps with
  | [] => dflt
  | p :: rest => lastArgOf rest (some p.2)

/-- The `queuedCall` record of `pDebounce.promise`: the latest arguments seen while an
invocation was outstanding, plus the waiting callers for the follow-up
(src/index.js lines 100-107). -/
structure QueuedB (α : Type) : Type where
  args : α
  resolvers : List Nat
deriving DecidableEq

/-- The outstanding run of `pDebounce.promise`: the callers sharing
`currentPromise`, the predetermined outcome of the initial invocation, and —
when the drain loop is executing a follow-up — that follow-up's waiting
callers and predetermined outcome. -/
structure CurrentB (β ε : Type) : Type where
  /-- Callers awaiting `currentPromise` (the initiator and, in non-after
  mode, every caller that arrived while the run was outstanding). -/
  sharers : List Nat
  /-- Eventual outcome of `function_.apply(this, arguments_)` for the call
  that started the run (src/index.js line 115). -/
  initOutcome : Except ε β
  /-- Holds `some (resolvers, outcome)` while the drain loop (lines 121-136) is
  executing a follow-up invocation. -/
  flight : Option (List Nat × Except ε β)
deriving DecidableEq

/-- State of one `pDebounce.promise` wrapper: the closure variables
`currentPromise` and `queuedCall` (src/index.js lines 91-92) plus the
observation logs. -/
structure StateB (α β ε : Type) : Type where
  /-- Field `currentPromise`: holds `some` iff a run is outstanding. -/
  current : Option (CurrentB β ε)
  /-- Field `queuedCall`. -/
  queued : Option (QueuedB α)
  /-- Log of settled caller promises, in settlement order. -/
  settled : List (Nat × Except ε β)
  /-- Log of argument lists the producer has been applied to, in order. -/
  invocations : List α
deriving DecidableEq

/-- The state of a freshly wrapped coalescer. -/
def initB : StateB α β ε :=
  { current := none, queued := none, settled := [], invocations := [] }

/-- Events of the coalescer's event loop. -/
inductive EventB (α : Type) : Type where
  /-- A call to the wrapped function by caller `c` with arguments `args`:
  runs the function body up to its first suspension (src/index.js
  lines 94-143). -/
  | call (c : Nat) (args : α)
  /-- The producer invocation currently executing settles, resuming the async
  body (lines 114-142): resolve a finished follow-up's waiters, then either
  start the queued follow-up or settle `currentPromise` and return to idle.
  A no-op when no run is outstanding. -/
  | settle

/-- One step of the in-flight coalescer, transcribed from
`pDebounce.promise` (src/index.js lines 90-151). -/
def stepB (after : Bool) (fn : α → Except ε β) (s : StateB α β ε) :
    EventB α → StateB α β ε
  | .call c args =>
    match s.current with
    | some cur =>
      if after then
        -- `queuedCall ??= {resolvers: []}; queuedCall.arguments = arguments_;
        -- ... queuedCall.resolvers.push({resolve, reject})` (lines 100-107):
        -- overwrite the arguments, append the caller
        match s.queued with
        | none => { s with queued := some ⟨args, [c]⟩ }
        | some q => { s with queued := some ⟨args, q.resolvers ++ [c]⟩ }
      else
        -- `if (!options.after) return currentPromise` (lines 96-98)
        { s with current := some { cur with sharers := cur.sharers ++ [c] } }
    | none =>
      -- start a run: `currentPromise = (async () => ...)()` invokes the
      -- producer now (line 115); its settlement is the `settle` event
      { s with
          current := some ⟨[c], fn args, none⟩
          invocations := s.invocations ++ [args] }
  | .settle =>
    match s.current with
    | none => s
    | some cur =>
      -- resolve the waiters of a follow-up that just finished (lines 128-135)
      let settledFlight :=
        match cur.flight with
        | some fl => fl.1.map (fun c => (c, fl.2))
        | none => []
      match s.queued with
      | some q =>
        -- `while (queuedCall)`: take the queued record and invoke the
        -- producer with its captured arguments (lines 121-127)
        { s with
            settled := s.settled ++ settledFlight
            queued := none
            invocations := s.invocations ++ [q.args]
            current := some { cur with flight := some (q.resolvers, fn q.args) } }
      | none =>
        -- loop exit: `throw initialError` / `return result` settles
        -- `currentPromise` for every sharer; `finally` clears it
        -- (lines 138-149)
        { s with
            settled := (s.settled ++ settledFlight) ++
              cur.sharers.map (fun c => (c, cur.initOutcome))
            current := none }

/-- Run the coalescer over a list of events. -/
def runB (after : Bool) (fn : α → Except ε β) (s : StateB α β ε)
    (es : List (EventB α)) : StateB α β ε :=
  es.foldl (stepB after fn) s

/-- A group of calls as an event list for the coalescer. -/
def callsOfB (ps : List (Nat × α)) : List (EventB α) :=
  ps.map fun p => .call p.1 p.2

/-- The effect of a group of calls on `queuedCall` while a run is
outstanding in after mode: each call overwrites the arguments and appends
its caller to the resolver list. -/
def queuedFold (q : Option (QueuedB α)) (ps : List (Nat × α)) :
    Option (QueuedB α) :=
  match ps with
  | [] => q
  | p :: rest =>
    match q with
    | none => queuedFold (some ⟨p.2, [p.1]⟩) rest
    | some q0 => queuedFold (some ⟨p.2, q0.resolvers ++ [p.1]⟩) rest

/-- The resolver list of an optional queued record. -/
def resolversOf : Option (QueuedB α) → List Nat
  | none => []
  | some q => q.resolvers

/-- Whether wrapping produced a callable (no exception was thrown). -/
def producedOk : Except JSError (Debounced α β ε) → Bool
  | .ok _ => true
  | .error _ => false


/-! ## Basic run lemmas -/

theorem runA_nil (cfg : ConfigA) (fn : α → ProducerResult β ε) (s : StateA α β ε) :
    runA cfg fn s [] = s := rfl

theorem runA_cons (cfg : ConfigA) (fn : α → ProducerResult β ε) (s : StateA α β ε)
    (e : EventA α ε) (es : List (EventA α ε)) :
    runA cfg fn s (e :: es) = runA cfg fn (stepA cfg fn s e) es := rfl

theorem runA_append (cfg : ConfigA) (fn : α → ProducerResult β ε) (s : StateA α β ε)
    (es1 es2 : List (EventA α ε)) :
    runA cfg fn s (es1 ++ es2) = runA cfg fn (runA cfg fn s es1) es2 :=
  List.foldl_append _ _ _ _

theorem runB_nil (after : Bool) (fn : α → Except ε β) (s : StateB α β ε) :
    runB after fn s [] = s := rfl

theorem runB_cons (after : Bool) (fn : α → Except ε β) (s : StateB α β ε)
    (e : EventB α) (es : List (EventB α)) :
    runB after fn s (e :: es) = runB after fn (stepB after fn s e) es := rfl

theorem runB_append (after : Bool) (fn : α → Except ε β) (s : StateB α β ε)
    (es1 es2 : List (EventB α)) :
    runB after fn s (es1 ++ es2) = runB after fn (runB after fn s es1) es2 :=
  List.foldl_append _ _ _ _

theorem callsOf_cons (p : Nat × α) (ps : List (Nat × α)) :
    (callsOf (ε := ε) (p :: ps)) = .call p.1 p.2 :: callsOf ps := rfl

theorem callsOfB_cons (p : Nat × α) (ps : List (Nat × α)) :
    callsOfB (p :: ps) = .call p.1 p.2 :: callsOfB ps := rfl

theorem lastArgOf_append_single (ps : List (Nat × α)) (p : Nat × α)
    (d : Option α) : lastArgOf (ps ++ [p]) d = some p.2 := by
  induction ps generalizing d with
  | nil => rfl
  | cons x xs ih => simpa [lastArgOf] using ih (some x.2)

/-! ## Component A: the effect of a call -/

section ComponentA

variable {α β ε : Type} (cfg : ConfigA) (fn : α → ProducerResult β ε)

/-- A call while the attached signal is already aborted: the executor rejects
the new promise with the abort reason at once (src/index.js lines 28-33) and
changes nothing else. -/
theorem stepA_call_aborted (s : StateA α β ε) (c : Nat) (a : α) (r : ε)
    (hsig : cfg.hasSignal = true) (hab : s.signalAborted = some r) :
    stepA cfg fn s (.call c a) =
      { s with settled := s.settled ++ [(c, .rejected r)] } := by
  simp [stepA, hsig, hab]

/-- A call that does not trigger the leading edge (the abort check passes,
and either `before` is off or a timer is already pending): it resets the
timer with its own arguments and joins the waiting handlers. -/
theorem stepA_call_push (s : StateA α β ε) (c : Nat) (a : α)
    (hab : (if cfg.hasSignal then s.signalAborted else none) = none)
    (hlead : cfg.before = true → s.timeoutArgs.isSome = true) :
    stepA cfg fn s (.call c a) =
      { s with
          timeoutArgs := some a
          promiseHandlers := s.promiseHandlers ++ [c]
          listenerAttached :=
            if cfg.hasSignal && (s.promiseHandlers ++ [c]).length == 1 then true
            else s.listenerAttached } := by
  cases hb : cfg.before with
  | false => simp [stepA, hab, hb]
  | true =>
    obtain ⟨x, hx⟩ := Option.isSome_iff_exists.mp (hlead hb)
    simp [stepA, hab, hb, hx]

/-- A call that triggers the leading edge (`before` on, no open burst) with a
producer that returns normally: it starts the timer, invokes the producer
within the call, and leaves the invocation in flight until a matching
`leadingSettle` (src/index.js lines 67-76). -/
theorem stepA_call_leading_async (s : StateA α β ε) (c : Nat) (a : α)
    (o : Except ε β)
    (hab : (if cfg.hasSignal then s.signalAborted else none) = none)
    (hb : cfg.before = true) (hto : s.timeoutArgs = none)
    (hfa : fn a = .asyncOut o) :
    stepA cfg fn s (.call c a) =
      { s with
          timeoutArgs := some a
          invocations := s.invocations ++ [a]
          pendingLeading := s.pendingLeading ++ [(c, o)] } := by
  simp [stepA, hab, hb, hto, hfa]

/-- A call that triggers the leading edge with a producer that throws
synchronously: the throw is caught before any suspension point, so the
caller's promise is rejected inside the very call that created it
(src/index.js lines 69-76). -/
theorem stepA_call_leading_throws (s : StateA α β ε) (c : Nat) (a : α)
    (e : ε)
    (hab : (if cfg.hasSignal then s.signalAborted else none) = none)
    (hb : cfg.before = true) (hto : s.timeoutArgs = none)
    (hfa : fn a = .throws e) :
    stepA cfg fn s (.call c a) =
      { s with
          timeoutArgs := some a
          invocations := s.invocations ++ [a]
          settled := s.settled ++ [(c, .rejected e)] } := by
  simp [stepA, hab, hb, hto, hfa]

/-- Running a burst of non-leading calls from a state that already has
waiting handlers: each call appends its handler and resets the timer with its
own arguments; nothing else changes. -/
theorem runA_calls_nonempty (ps : List (Nat × α)) (s : StateA α β ε)
    (hab : s.signalAborted = none)
    (hlead : cfg.before = true → s.timeoutArgs.isSome = true)
    (hne : s.promiseHandlers ≠ []) :
    runA cfg fn s (callsOf ps) =
      { s with
          promiseHandlers := s.promiseHandlers ++ ps.map Prod.fst
          timeoutArgs := lastArgOf ps s.timeoutArgs } := by
  induction ps generalizing s with
  | nil => simp [runA, callsOf, lastArgOf]
  | cons p rest ih =>
    rw [callsOf_cons, runA_cons,
      stepA_call_push cfg fn s p.1 p.2 (by simp [hab]) hlead]
    obtain ⟨x, xs, hph⟩ : ∃ x xs, s.promiseHandlers = x :: xs := by
      cases hph : s.promiseHandlers with
      | nil => exact absurd hph hne
      | cons x xs => exact ⟨x, xs, rfl⟩
    have hlen : (cfg.hasSignal && (s.promiseHandlers ++ [p.1]).length == 1)
        = false := by
      simp [hph]
    rw [hlen]
    rw [ih _ (by simp [hab]) (by intro _; simp) (by simp [hph])]
    simp [lastArgOf, List.append_assoc]

/-- Running a burst of non-leading calls from a state with no waiting
handlers (a fresh burst): the handlers become the burst's callers in call
order, the timer carries the last call's arguments, and the abort listener is
attached iff a signal is configured and the burst is non-empty. -/
theorem runA_calls_from_empty (ps : List (Nat × α)) (s : StateA α β ε)
    (hab : s.signalAborted = none)
    (hlead : cfg.before = true → s.timeoutArgs.isSome = true)
    (hph : s.promiseHandlers = []) :
    runA cfg fn s (callsOf ps) =
      { s with
          promiseHandlers := ps.map Prod.fst
          timeoutArgs := lastArgOf ps s.timeoutArgs
          listenerAttached :=
            if ps.isEmpty then s.listenerAttached
            else (cfg.hasSignal || s.listenerAttached) } := by
  cases ps with
  | nil => simp [runA, callsOf, lastArgOf, ← hph]
  | cons p rest =>
    rw [callsOf_cons, runA_cons,
      stepA_call_push cfg fn s p.1 p.2 (by simp [hab]) hlead]
    rw [hph]
    have hla : (cfg.hasSignal && (([] : List Nat) ++ [p.1]).length == 1)
        = cfg.hasSignal := by simp
    rw [hla]
    rw [runA_calls_nonempty cfg fn rest _ (by simp [hab]) (by intro _; simp)
      (by simp)]
    cases cfg.hasSignal <;> simp [lastArgOf]

/-- A `timerFire` with no pending timer is a no-op (a cleared timer never
fires). -/
theorem stepA_timer_noop (s : StateA α β ε) (hto : s.timeoutArgs = none) :
    stepA cfg fn s .timerFire = s := by
  simp [stepA, hto]

/-- The timer callback in non-leading mode with a producer that returns
normally: it invokes the producer with the arguments captured by the last
call, captures and resets the handler list, and suspends in `await` — the
captured handlers settle at the matching `delayedSettle` (src/index.js
lines 39-49). -/
theorem stepA_timer_delayed (s : StateA α β ε) (a : α) (o : Except ε β)
    (hto : s.timeoutArgs = some a) (hb : cfg.before = false)
    (hfa : fn a = .asyncOut o) :
    stepA cfg fn s .timerFire =
      { s with
          timeoutArgs := none
          promiseHandlers := []
          invocations := s.invocations ++ [a]
          pendingDelayed := s.pendingDelayed ++ [(s.promiseHandlers, o)] } := by
  simp [stepA, hto, hb, hfa]

/-- The timer callback in non-leading mode with a producer that throws
synchronously: the throw is caught before any suspension point, so the whole
callback runs in one go — handlers are rejected and the listener removed
within the firing (src/index.js lines 39-65). -/
theorem stepA_timer_delayed_throws (s : StateA α β ε) (a : α) (e : ε)
    (hto : s.timeoutArgs = some a) (hb : cfg.before = false)
    (hfa : fn a = .throws e) :
    stepA cfg fn s .timerFire =
      { s with
          timeoutArgs := none
          promiseHandlers := []
          leadingValue := none
          listenerAttached := false
          invocations := s.invocations ++ [a]
          settled := s.settled ++
            s.promiseHandlers.map (fun c => (c, AOutcome.rejected e)) } := by
  simp [stepA, hto, hb, hfa]

/-- The timer callback in leading mode: no producer invocation and no
suspension; every captured handler resolves with the cached `leadingValue`
(which is the JavaScript `undefined` when unset) within the firing. -/
theorem stepA_timer_before (s : StateA α β ε) (a : α)
    (hto : s.timeoutArgs = some a) (hb : cfg.before = true) :
    stepA cfg fn s .timerFire =
      { s with
          timeoutArgs := none
          promiseHandlers := []
          leadingValue := none
          listenerAttached := false
          settled := s.settled ++
            s.promiseHandlers.map
              (fun c => (c, AOutcome.resolved s.leadingValue)) } := by
  simp [stepA, hto, hb]

/-- Settlement of a successful in-flight leading invocation: cache the value
and resolve its caller with it (src/index.js lines 71-72). -/
theorem stepA_leadingSettle_ok (s : StateA α β ε) (i : Nat) (c : Nat) (v : β)
    (h : s.pendingLeading[i]? = some (c, .ok v)) :
    stepA cfg fn s (.leadingSettle i) =
      { s with
          pendingLeading := s.pendingLeading.eraseIdx i
          leadingValue := some v
          settled := s.settled ++ [(c, .resolved (some v))] } := by
  simp [stepA, h]

/-- Settlement of a failed in-flight leading invocation: reject only its
caller; `leadingValue` is left untouched (src/index.js lines 73-75). -/
theorem stepA_leadingSettle_error (s : StateA α β ε) (i : Nat) (c : Nat)
    (e : ε) (h : s.pendingLeading[i]? = some (c, .error e)) :
    stepA cfg fn s (.leadingSettle i) =
      { s with
          pendingLeading := s.pendingLeading.eraseIdx i
          settled := s.settled ++ [(c, .rejected e)] } := by
  simp [stepA, h]

/-- Out-of-range leading settlement is a no-op. -/
theorem stepA_leadingSettle_noop (s : StateA α β ε) (i : Nat)
    (h : s.pendingLeading[i]? = none) :
    stepA cfg fn s (.leadingSettle i) = s := by
  simp [stepA, h]

/-- Settlement of an in-flight non-leading timer callback: the handlers it
captured settle with the one producer outcome, `leadingValue` is cleared,
and the shared abort listener is removed (src/index.js lines 51-64). -/
theorem stepA_delayedSettle (s : StateA α β ε) (i : Nat) (hs : List Nat)
    (o : Except ε β) (h : s.pendingDelayed[i]? = some (hs, o)) :
    stepA cfg fn s (.delayedSettle i) =
      { s with
          pendingDelayed := s.pendingDelayed.eraseIdx i
          settled := s.settled ++ hs.map (fun c => (c, aoutcomeOf o))
          leadingValue := none
          listenerAttached := false } := by
  simp [stepA, h]

/-- Out-of-range delayed settlement is a no-op. -/
theorem stepA_delayedSettle_noop (s : StateA α β ε) (i : Nat)
    (h : s.pendingDelayed[i]? = none) :
    stepA cfg fn s (.delayedSettle i) = s := by
  simp [stepA, h]

end ComponentA

/-! ## Claim theorems, Component A -/

/-- Claim C1: for every burst of `N ≥ 1` calls issued within one quiet window
(modelled as the event trace "all the calls, then the timer fires, then the
producer settles") in non-leading mode, the producer is invoked exactly once,
with the arguments of the last call of the burst, and all `N` callers settle
with that single invocation's identical outcome (`resolved v` when the
producer succeeds with `v`, which is the case the claim describes; the
identical error when it fails, synchronously or asynchronously), in call
order. -/
theorem c1_nonleading_burst_single_invocation (b : Bool)
    (fn : α → ProducerResult β ε) (cs : List (Nat × α)) (cN : Nat) (aN : α) :
    (runA ⟨false, b⟩ fn initA
        (callsOf (cs ++ [(cN, aN)]) ++
          [.timerFire, .delayedSettle 0])).invocations = [aN] ∧
    (runA ⟨false, b⟩ fn initA
        (callsOf (cs ++ [(cN, aN)]) ++
          [.timerFire, .delayedSettle 0])).settled =
      (cs ++ [(cN, aN)]).map
        (fun p => (p.1, aoutcomeOf (prOutcome (fn aN)))) := by
  rw [runA_append,
    runA_calls_from_empty _ fn _ _ rfl (fun h => by simp at h) rfl]
  cases hfa : fn aN with
  | throws e =>
    rw [runA_cons, stepA_timer_delayed_throws _ fn _ aN e
      (by simp [lastArgOf_append_single]) rfl hfa]
    rw [show runA (α := α) (β := β) (ε := ε) ⟨false, b⟩ fn _
      [.delayedSettle 0] = stepA ⟨false, b⟩ fn _ (.delayedSettle 0) from rfl]
    rw [stepA_delayedSettle_noop _ fn _ 0 (by simp [initA])]
    simp [initA, aoutcomeOf, prOutcome, Function.comp_def]
  | asyncOut o =>
    rw [runA_cons, stepA_timer_delayed _ fn _ aN o
      (by simp [lastArgOf_append_single]) rfl hfa]
    rw [show runA (α := α) (β := β) (ε := ε) ⟨false, b⟩ fn _
      [.delayedSettle 0] = stepA ⟨false, b⟩ fn _ (.delayedSettle 0) from rfl]
    rw [stepA_delayedSettle _ fn _ 0 ((cs ++ [(cN, aN)]).map Prod.fst) o
      (by simp [initA])]
    simp [initA, prOutcome, Function.comp_def]

theorem lastArgOf_isSome (ps : List (Nat × α)) (a : α) :
    (lastArgOf ps (some a)).isSome = true := by
  induction ps generalizing a with
  | nil => rfl
  | cons p rest ih => simpa [lastArgOf] using ih p.2

/-- Claim C5: in leading mode, the first call of a burst invokes the producer
immediately and resolves with its freshly computed value `v`; every later
caller of the burst (arriving before the timer fires) resolves at timer
firing with that same cached value, and the producer is invoked exactly once
for the burst. -/
theorem c5_leading_burst (b : Bool) (fn : α → ProducerResult β ε) (c1 : Nat)
    (a1 : α) (rest : List (Nat × α)) (v : β)
    (hv : fn a1 = .asyncOut (.ok v)) :
    (runA ⟨true, b⟩ fn initA
        (.call c1 a1 :: .leadingSettle 0 ::
          (callsOf rest ++ [.timerFire]))).invocations = [a1] ∧
    (runA ⟨true, b⟩ fn initA
        (.call c1 a1 :: .leadingSettle 0 ::
          (callsOf rest ++ [.timerFire]))).settled =
      (c1, AOutcome.resolved (some v)) ::
        rest.map (fun p => (p.1, AOutcome.resolved (some v))) := by
  rw [runA_cons, stepA_call_leading_async _ fn _ _ _ _ (by simp [initA])
    rfl rfl hv]
  rw [runA_cons, stepA_leadingSettle_ok _ fn _ 0 c1 v (by simp [initA])]
  rw [runA_append,
    runA_calls_from_empty _ fn _ _ rfl (fun _ => by simp) rfl]
  obtain ⟨x, hx⟩ := Option.isSome_iff_exists.mp (lastArgOf_isSome rest a1)
  rw [show runA (α := α) (β := β) (ε := ε) ⟨true, b⟩ fn _ [.timerFire] =
    stepA ⟨true, b⟩ fn _ .timerFire from rfl]
  rw [stepA_timer_before _ fn _ x (by simp [hx]) rfl]
  simp [initA, Function.comp_def]

/-- Claim C6: when the leading-edge invocation fails (asynchronously — a
synchronous throw also rejects only the leading caller, via the in-call
rejection path), only the first caller's promise rejects with the failure;
every later caller of the same burst resolves at timer firing with the
absent (`undefined`, here `resolved none`) cached leading value, and the
producer is still invoked only once. -/
theorem c6_leading_failure_quirk (b : Bool) (fn : α → ProducerResult β ε)
    (c1 : Nat) (a1 : α) (rest : List (Nat × α)) (e : ε)
    (he : fn a1 = .asyncOut (.error e)) :
    (runA ⟨true, b⟩ fn initA
        (.call c1 a1 :: .leadingSettle 0 ::
          (callsOf rest ++ [.timerFire]))).invocations = [a1] ∧
    (runA ⟨true, b⟩ fn initA
        (.call c1 a1 :: .leadingSettle 0 ::
          (callsOf rest ++ [.timerFire]))).settled =
      (c1, AOutcome.rejected e) ::
        rest.map (fun p => (p.1, AOutcome.resolved none)) := by
  rw [runA_cons, stepA_call_leading_async _ fn _ _ _ _ (by simp [initA])
    rfl rfl he]
  rw [runA_cons, stepA_leadingSettle_error _ fn _ 0 c1 e (by simp [initA])]
  rw [runA_append,
    runA_calls_from_empty _ fn _ _ rfl (fun _ => by simp) rfl]
  obtain ⟨x, hx⟩ := Option.isSome_iff_exists.mp (lastArgOf_isSome rest a1)
  rw [show runA (α := α) (β := β) (ε := ε) ⟨true, b⟩ fn _ [.timerFire] =
    stepA ⟨true, b⟩ fn _ .timerFire from rfl]
  rw [stepA_timer_before _ fn _ x (by simp [hx]) rfl]
  simp [initA, Function.comp_def]

/-- Witness for C5 at a concrete input: a leading burst with callers 0, 1, 2
where the producer resolves with 42 on the first call's arguments. -/
theorem c5_leading_burst_witness :
    (runA ⟨true, false⟩
        (fun _ : Nat => ProducerResult.asyncOut (Except.ok 42 : Except Nat Nat))
        initA (.call 0 5 :: .leadingSettle 0 ::
          (callsOf [(1, 6), (2, 7)] ++ [.timerFire]))).invocations = [5] ∧
    (runA ⟨true, false⟩
        (fun _ : Nat => ProducerResult.asyncOut (Except.ok 42 : Except Nat Nat))
        initA (.call 0 5 :: .leadingSettle 0 ::
          (callsOf [(1, 6), (2, 7)] ++ [.timerFire]))).settled =
      [(0, AOutcome.resolved (some 42)), (1, AOutcome.resolved (some 42)),
        (2, AOutcome.resolved (some 42))] := by
  simpa using c5_leading_burst false
    (fun _ : Nat => ProducerResult.asyncOut (Except.ok 42 : Except Nat Nat))
    0 5 [(1, 6), (2, 7)] 42 rfl

/-- Witness for C6 at a concrete input: the leading invocation rejects with
error 9; caller 0 rejects with 9, callers 1 and 2 resolve with `undefined`. -/
theorem c6_leading_failure_quirk_witness :
    (runA ⟨true, false⟩
        (fun _ : Nat =>
          ProducerResult.asyncOut (Except.error 9 : Except Nat Nat))
        initA (.call 0 5 :: .leadingSettle 0 ::
          (callsOf [(1, 6), (2, 7)] ++ [.timerFire]))).invocations = [5] ∧
    (runA ⟨true, false⟩
        (fun _ : Nat =>
          ProducerResult.asyncOut (Except.error 9 : Except Nat Nat))
        initA (.call 0 5 :: .leadingSettle 0 ::
          (callsOf [(1, 6), (2, 7)] ++ [.timerFire]))).settled =
      [(0, AOutcome.rejected 9), (1, AOutcome.resolved none),
        (2, AOutcome.resolved none)] := by
  simpa using c6_leading_failure_quirk false
    (fun _ : Nat => ProducerResult.asyncOut (Except.error 9 : Except Nat Nat))
    0 5 [(1, 6), (2, 7)] 9 rfl

/-! ## Component B: lemmas -/

section ComponentB

variable {α β ε : Type} (after : Bool) (fn : α → Except ε β)

/-- A call while the coalescer is idle starts a run: the producer is invoked
with this call's arguments and the caller awaits `currentPromise`. -/
theorem stepB_call_start (s : StateB α β ε) (c : Nat) (a : α)
    (h : s.current = none) :
    stepB after fn s (.call c a) =
      { s with
          current := some ⟨[c], fn a, none⟩
          invocations := s.invocations ++ [a] } := by
  simp [stepB, h]

/-- A call while a run is outstanding, after mode off: the caller is returned
the outstanding `currentPromise` (src/index.js lines 96-98). -/
theorem stepB_call_share (s : StateB α β ε) (cur : CurrentB β ε) (c : Nat)
    (a : α) (h : s.current = some cur) :
    stepB false fn s (.call c a) =
      { s with current := some { cur with sharers := cur.sharers ++ [c] } } := by
  simp [stepB, h]

/-- A call while a run is outstanding, after mode on: the queued follow-up's
arguments are overwritten with this call's and the caller joins its resolver
list (src/index.js lines 100-107). -/
theorem stepB_call_queue (s : StateB α β ε) (cur : CurrentB β ε) (c : Nat)
    (a : α) (h : s.current = some cur) :
    stepB true fn s (.call c a) =
      { s with queued := some ⟨a, resolversOf s.queued ++ [c]⟩ } := by
  cases hq : s.queued <;> simp [stepB, h, hq, resolversOf]

/-- A group of calls arriving during an outstanding run, after mode off: all
of them join the sharers of the current run; nothing else changes. -/
theorem runB_calls_share (ps : List (Nat × α)) (s : StateB α β ε)
    (cur : CurrentB β ε) (h : s.current = some cur) :
    runB false fn s (callsOfB ps) =
      { s with
          current := some { cur with
            sharers := cur.sharers ++ ps.map Prod.fst } } := by
  induction ps generalizing s cur with
  | nil => simp [runB, callsOfB, ← h]
  | cons p rest ih =>
    rw [callsOfB_cons, runB_cons, stepB_call_share fn s cur p.1 p.2 h]
    rw [ih _ { cur with sharers := cur.sharers ++ [p.1] } (by simp)]
    simp

/-- A group of calls arriving during an outstanding run, after mode on: their
cumulative effect on `queuedCall` is `queuedFold`; nothing else changes. -/
theorem runB_calls_queue (ps : List (Nat × α)) (s : StateB α β ε)
    (cur : CurrentB β ε) (h : s.current = some cur) :
    runB true fn s (callsOfB ps) =
      { s with queued := queuedFold s.queued ps } := by
  induction ps generalizing s with
  | nil => simp [runB, callsOfB, queuedFold]
  | cons p rest ih =>
    rw [callsOfB_cons, runB_cons, stepB_call_queue fn s cur p.1 p.2 h]
    rw [ih _ (by simp [h])]
    cases hq : s.queued <;> simp [queuedFold, resolversOf, hq]

/-- A non-empty group of calls leaves exactly one queued follow-up whose
arguments are those of the last call and whose resolvers are all the group's
callers appended to the previous resolvers, in arrival order. -/
theorem queuedFold_append_single (qs : List (Nat × α)) (p : Nat × α)
    (q : Option (QueuedB α)) :
    queuedFold q (qs ++ [p]) =
      some ⟨p.2, resolversOf q ++ (qs ++ [p]).map Prod.fst⟩ := by
  induction qs generalizing q with
  | nil => cases q <;> simp [queuedFold, resolversOf]
  | cons x xs ih => cases q <;> simp [queuedFold, resolversOf, ih]

/-- Settlement with no queued follow-up and no follow-up executing: the drain
loop exits, every sharer settles with the initial invocation's outcome, and
the coalescer returns to idle. -/
theorem stepB_settle_finish (s : StateB α β ε) (cur : CurrentB β ε)
    (h : s.current = some cur) (hq : s.queued = none)
    (hfl : cur.flight = none) :
    stepB after fn s .settle =
      { s with
          settled := s.settled ++
            cur.sharers.map (fun c => (c, cur.initOutcome))
          current := none } := by
  simp [stepB, h, hq, hfl]

/-- Settlement of a follow-up with nothing further queued: the follow-up's
resolvers settle with its outcome, then the sharers settle with the initial
outcome, and the coalescer returns to idle. -/
theorem stepB_settle_finish_flight (s : StateB α β ε) (cur : CurrentB β ε)
    (rs : List Nat) (out : Except ε β) (h : s.current = some cur)
    (hq : s.queued = none) (hfl : cur.flight = some (rs, out)) :
    stepB after fn s .settle =
      { s with
          settled := (s.settled ++ rs.map (fun c => (c, out))) ++
            cur.sharers.map (fun c => (c, cur.initOutcome))
          current := none } := by
  simp [stepB, h, hq, hfl]

/-- Settlement with a queued follow-up (and no follow-up already executing):
the drain loop takes the queued record and invokes the producer with its
captured arguments. -/
theorem stepB_settle_launch (s : StateB α β ε) (cur : CurrentB β ε)
    (q : QueuedB α) (h : s.current = some cur) (hq : s.queued = some q)
    (hfl : cur.flight = none) :
    stepB after fn s .settle =
      { s with
          queued := none
          invocations := s.invocations ++ [q.args]
          current := some { cur with
            flight := some (q.resolvers, fn q.args) } } := by
  simp [stepB, h, hq, hfl]

end ComponentB

/-! ## Claim theorems, Component B -/

/-- Claim C2: for `pDebounce.promise` with after mode off, every call
arriving while an invocation is outstanding shares that invocation's eventual
outcome (value or failure): with caller `c1` starting a run with arguments
`a1` and the `rest` callers arriving before it settles, the producer is
invoked exactly once (with `a1` — the later calls' arguments are discarded),
and every caller settles with the outcome of `fn a1`. -/
theorem c2_promise_inflight_sharing (fn : α → Except ε β) (c1 : Nat) (a1 : α)
    (rest : List (Nat × α)) :
    (runB false fn initB
        (.call c1 a1 :: (callsOfB rest ++ [.settle]))).invocations = [a1] ∧
    (runB false fn initB
        (.call c1 a1 :: (callsOfB rest ++ [.settle]))).settled =
      (c1, fn a1) :: rest.map (fun p => (p.1, fn a1)) ∧
    (runB false fn initB
        (.call c1 a1 :: (callsOfB rest ++ [.settle]))).current = none := by
  rw [runB_cons, stepB_call_start false fn _ c1 a1 rfl, runB_append,
    runB_calls_share fn rest _ _ rfl]
  rw [show runB (α := α) (β := β) (ε := ε) false fn _ [.settle] =
    stepB false fn _ .settle from rfl]
  rw [stepB_settle_finish false fn _ _ rfl rfl rfl]
  simp [initB, Function.comp_def]

/-- Claim C4: for `pDebounce.promise` with after mode on, all calls arriving
while caller `c1`'s invocation (arguments `a1`) is outstanding are coalesced
into exactly one queued follow-up carrying the most recently supplied
arguments `aN` and all of those callers as resolvers; after the current
invocation settles the follow-up is invoked once, every caller who queued
settles with that single follow-up's outcome `fn aN`, and `c1` settles
independently with the first invocation's outcome `fn a1`. -/
theorem c4_promise_after_followup (fn : α → Except ε β) (c1 : Nat) (a1 : α)
    (qs : List (Nat × α)) (cN : Nat) (aN : α) :
    (runB true fn initB
        (.call c1 a1 :: callsOfB (qs ++ [(cN, aN)]))).queued =
      some ⟨aN, (qs ++ [(cN, aN)]).map Prod.fst⟩ ∧
    (runB true fn initB
        (.call c1 a1 :: (callsOfB (qs ++ [(cN, aN)]) ++
          [.settle, .settle]))).invocations = [a1, aN] ∧
    (runB true fn initB
        (.call c1 a1 :: (callsOfB (qs ++ [(cN, aN)]) ++
          [.settle, .settle]))).settled =
      (qs ++ [(cN, aN)]).map (fun p => (p.1, fn aN)) ++ [(c1, fn a1)] ∧
    (runB true fn initB
        (.call c1 a1 :: (callsOfB (qs ++ [(cN, aN)]) ++
          [.settle, .settle]))).current = none := by
  have hcalls : runB true fn initB
      (.call c1 a1 :: callsOfB (qs ++ [(cN, aN)])) =
      ({ current := some ⟨[c1], fn a1, none⟩
         queued := some ⟨aN, (qs ++ [(cN, aN)]).map Prod.fst⟩
         settled := []
         invocations := [a1] } : StateB α β ε) := by
    rw [runB_cons, stepB_call_start true fn _ c1 a1 rfl,
      runB_calls_queue fn _ _ _ rfl, queuedFold_append_single]
    simp [initB, resolversOf]
  refine ⟨by rw [hcalls], ?_⟩
  rw [show (EventB.call c1 a1 :: (callsOfB (qs ++ [(cN, aN)]) ++
      [EventB.settle, EventB.settle])) =
    (EventB.call c1 a1 :: callsOfB (α := α) (qs ++ [(cN, aN)])) ++
      [EventB.settle, EventB.settle] from by simp]
  rw [runB_append, hcalls, runB_cons,
    stepB_settle_launch true fn _ ⟨[c1], fn a1, none⟩
      ⟨aN, (qs ++ [(cN, aN)]).map Prod.fst⟩ rfl rfl rfl]
  rw [show runB (α := α) (β := β) (ε := ε) true fn _ [.settle] =
    stepB true fn _ .settle from rfl]
  rw [stepB_settle_finish_flight true fn _ _ _ _ rfl rfl rfl]
  simp [Function.comp_def]

/-! ## Wrap-time validation -/

/-- Claim C7: wrapping with any non-finite `wait` throws the `TypeError`
synchronously at wrap time and produces no callable; wrapping with any finite
`wait` — any rational, so including zero, negative and fractional values —
succeeds and produces the wrapped callable. -/
theorem c7_wait_validation (fn : α → ProducerResult β ε) (cfg : ConfigA) :
    (∀ q : ℚ, pDebounceMk fn (.finite q) cfg = .ok ⟨cfg, fn⟩) ∧
    (∀ wait : JSNum, isFiniteJS wait = false →
      pDebounceMk fn wait cfg =
        .error (.typeError "Expected wait to be a finite number")) ∧
    (∀ wait : JSNum, producedOk (pDebounceMk fn wait cfg) = isFiniteJS wait) := by
  refine ⟨fun q => rfl, fun w hw => ?_, fun w => ?_⟩
  · cases w <;> first | rfl | simp [isFiniteJS] at hw
  · cases w <;> rfl

/-- Witness for C7 at concrete inputs: `NaN` throws the `TypeError`, the
fractional negative wait `-1/2` wraps successfully. -/
theorem c7_wait_validation_witness :
    pDebounceMk
        (fun n : Nat => ProducerResult.asyncOut (Except.ok n : Except Nat Nat))
        JSNum.nan ⟨false, false⟩ =
      .error (.typeError "Expected wait to be a finite number") ∧
    pDebounceMk
        (fun n : Nat => ProducerResult.asyncOut (Except.ok n : Except Nat Nat))
        (JSNum.finite (-1/2)) ⟨false, false⟩ =
      .ok ⟨⟨false, false⟩, fun n => .asyncOut (.ok n)⟩ :=
  ⟨(c7_wait_validation _ _).2.1 .nan rfl, (c7_wait_validation _ _).1 (-1/2)⟩

/-! ## Abort behaviour of Component A -/

section AbortA

variable {α β ε : Type} (cfg : ConfigA) (fn : α → ProducerResult β ε)

/-- The signal aborts while `onAbort` is registered: the pending timer is
cleared and every waiting handler rejects with the abort reason
(src/index.js lines 10-23). -/
theorem stepA_abort_listener (s : StateA α β ε) (r : ε)
    (hsig : cfg.hasSignal = true) (hab : s.signalAborted = none)
    (hla : s.listenerAttached = true) :
    stepA cfg fn s (.abort r) =
      { s with
          signalAborted := some r
          timeoutArgs := none
          listenerAttached := false
          promiseHandlers := []
          settled := s.settled ++
            s.promiseHandlers.map (fun c => (c, AOutcome.rejected r)) } := by
  simp [stepA, hsig, hab, hla]

/-- The signal aborts while `onAbort` is not registered (no handler has been
pushed since the registration was last stripped): only the signal's state
changes — waiting handlers are not rejected and a pending timer survives. -/
theorem stepA_abort_unlistened (s : StateA α β ε) (r : ε)
    (hsig : cfg.hasSignal = true) (hab : s.signalAborted = none)
    (hla : s.listenerAttached = false) :
    stepA cfg fn s (.abort r) = { s with signalAborted := some r } := by
  simp [stepA, hsig, hab, hla]

/-- A signal aborts at most once: a second abort event is a no-op. -/
theorem stepA_abort_noop (s : StateA α β ε) (r r' : ε)
    (hab : s.signalAborted = some r') :
    stepA cfg fn s (.abort r) = s := by
  cases hsig : cfg.hasSignal <;> simp [stepA, hsig, hab]

/-- Once the signal has aborted and any pending timer can no longer invoke
the producer (no timer, or leading mode where the timer callback reads the
cache instead of invoking), every further event leaves the invocation log
unchanged, the abort reason in place, and that condition stable.  In-flight
executions may still settle, but they never invoke the producer again. -/
theorem runA_aborted_frozen (hsig : cfg.hasSignal = true)
    (es : List (EventA α ε)) (s : StateA α β ε) (r : ε)
    (hab : s.signalAborted = some r)
    (hq : s.timeoutArgs.isSome = true → cfg.before = true) :
    (runA cfg fn s es).invocations = s.invocations ∧
    (runA cfg fn s es).signalAborted = some r ∧
    ((runA cfg fn s es).timeoutArgs.isSome = true → cfg.before = true) := by
  induction es generalizing s with
  | nil => exact ⟨rfl, hab, hq⟩
  | cons e es ih =>
    rw [runA_cons]
    cases e with
    | call c a =>
      rw [stepA_call_aborted cfg fn s c a r hsig hab]
      exact ih _ hab hq
    | timerFire =>
      cases hto : s.timeoutArgs with
      | none =>
        rw [stepA_timer_noop cfg fn s hto]
        exact ih _ hab hq
      | some a =>
        have hb : cfg.before = true := hq (by simp [hto])
        rw [stepA_timer_before cfg fn s a hto hb]
        simpa using ih _ (by simpa using hab) (by simp)
    | leadingSettle i =>
      cases hpl : s.pendingLeading[i]? with
      | none =>
        rw [stepA_leadingSettle_noop cfg fn s i hpl]
        exact ih _ hab hq
      | some p =>
        obtain ⟨c, out⟩ := p
        cases out with
        | ok v =>
          rw [stepA_leadingSettle_ok cfg fn s i c v hpl]
          simpa using ih _ (by simpa using hab) (by simpa using hq)
        | error e' =>
          rw [stepA_leadingSettle_error cfg fn s i c e' hpl]
          simpa using ih _ (by simpa using hab) (by simpa using hq)
    | delayedSettle i =>
      cases hpd : s.pendingDelayed[i]? with
      | none =>
        rw [stepA_delayedSettle_noop cfg fn s i hpd]
        exact ih _ hab hq
      | some p =>
        obtain ⟨hs, out⟩ := p
        rw [stepA_delayedSettle cfg fn s i hs out hpd]
        simpa using ih _ (by simpa using hab) (by simpa using hq)
    | abort r' =>
      rw [stepA_abort_noop cfg fn s r' r hab]
      exact ih _ hab hq

end AbortA

/-! ## Claim C3 (corrected): abort semantics and the listener-stripping race -/

/-- Counterexample to claim C3 as stated, at a concrete input.  The claim
says an abort while callers wait on the timer rejects all of them and
cancels the timer so the producer never runs.  But the shared `onAbort`
registration can be stripped: caller 0's timer fires and its producer
execution is slow; caller 1 arrives during that execution, starting a new
burst whose `addEventListener` is deduplicated against the still-present
registration; when the first execution settles, line 64's
`removeEventListener` strips that one registration.  The abort then runs no
listener: caller 1 (waiting, with a pending timer) is not rejected, the
timer survives, and it later invokes the producer, resolving caller 1
normally. -/
theorem c3_counterexample_listener_stripping :
    (runA ⟨false, true⟩
        (fun _ : Nat => ProducerResult.asyncOut (Except.ok 1 : Except Nat Nat))
        initA [.call 0 10, .timerFire, .call 1 20,
          .delayedSettle 0]).promiseHandlers = [1] ∧
    ¬ ((runA ⟨false, true⟩
        (fun _ : Nat => ProducerResult.asyncOut (Except.ok 1 : Except Nat Nat))
        initA [.call 0 10, .timerFire, .call 1 20, .delayedSettle 0,
          .abort 7]).timeoutArgs = none) ∧
    ¬ ((1, AOutcome.rejected 7) ∈ (runA ⟨false, true⟩
        (fun _ : Nat => ProducerResult.asyncOut (Except.ok 1 : Except Nat Nat))
        initA [.call 0 10, .timerFire, .call 1 20, .delayedSettle 0,
          .abort 7]).settled) ∧
    (runA ⟨false, true⟩
        (fun _ : Nat => ProducerResult.asyncOut (Except.ok 1 : Except Nat Nat))
        initA [.call 0 10, .timerFire, .call 1 20, .delayedSettle 0, .abort 7,
          .timerFire, .delayedSettle 0]).invocations = [10, 20] ∧
    (runA ⟨false, true⟩
        (fun _ : Nat => ProducerResult.asyncOut (Except.ok 1 : Except Nat Nat))
        initA [.call 0 10, .timerFire, .call 1 20, .delayedSettle 0, .abort 7,
          .timerFire, .delayedSettle 0]).settled =
      [(0, AOutcome.resolved (some 1)), (1, AOutcome.resolved (some 1))] := by
  decide

/-- Claim C3 as amended, in three parts.
(i) A call made when the attached signal is already aborted rejects
immediately, within the call, with the signal's reason, and touches nothing
else — no timer state, no handlers, no producer invocation.
(ii) If the signal aborts while the `onAbort` registration is still in place
(which holds for a burst begun from the idle callable, but can be defeated
when the burst started during a still-executing earlier timer callback whose
completion strips the shared listener), every currently waiting caller
rejects with the reason, the pending timer is cancelled, and no sequence of
further events ever invokes the producer again.
(iii) An abort arriving after a leading-edge invocation has started does not
affect that call's own resolution: the leading caller still settles with its
own producer outcome, whether the producer threw synchronously or settles
asynchronously. -/
theorem c3_abort_semantics_amended (fn : α → ProducerResult β ε) :
    (∀ (cfg : ConfigA) (s : StateA α β ε) (c : Nat) (a : α) (r : ε),
      cfg.hasSignal = true → s.signalAborted = some r →
      stepA cfg fn s (.call c a) =
        { s with settled := s.settled ++ [(c, .rejected r)] }) ∧
    (∀ (cfg : ConfigA) (s : StateA α β ε) (r : ε),
      cfg.hasSignal = true → s.listenerAttached = true →
      s.signalAborted = none →
      stepA cfg fn s (.abort r) =
        { s with
            signalAborted := some r
            timeoutArgs := none
            listenerAttached := false
            promiseHandlers := []
            settled := s.settled ++
              s.promiseHandlers.map (fun c => (c, AOutcome.rejected r)) } ∧
      (∀ es, (runA cfg fn (stepA cfg fn s (.abort r)) es).invocations =
        (stepA cfg fn s (.abort r)).invocations)) ∧
    (∀ (c : Nat) (a : α) (r : ε),
      (runA ⟨true, true⟩ fn initA
          [.call c a, .abort r, .leadingSettle 0]).settled =
        [(c, aoutcomeOf (prOutcome (fn a)))]) := by
  refine ⟨fun cfg s c a r hsig hab =>
      stepA_call_aborted cfg fn s c a r hsig hab,
    fun cfg s r hsig hla hab => ?_, fun c a r => ?_⟩
  · have hstep := stepA_abort_listener cfg fn s r hsig hab hla
    refine ⟨hstep, fun es => ?_⟩
    rw [hstep]
    exact (runA_aborted_frozen cfg fn hsig es _ r rfl
      (fun h => by simp at h)).1
  · cases hfa : fn a with
    | throws e =>
      rw [runA_cons,
        stepA_call_leading_throws _ fn _ c a e (by simp [initA]) rfl rfl hfa]
      rw [runA_cons, stepA_abort_unlistened _ fn _ r rfl (by simp [initA])
        (by simp [initA])]
      rw [show runA (α := α) (β := β) (ε := ε) ⟨true, true⟩ fn _
        [.leadingSettle 0] = stepA ⟨true, true⟩ fn _ (.leadingSettle 0)
        from rfl]
      rw [stepA_leadingSettle_noop _ fn _ 0 (by simp [initA])]
      simp [initA, aoutcomeOf, prOutcome, hfa]
    | asyncOut o =>
      rw [runA_cons,
        stepA_call_leading_async _ fn _ c a o (by simp [initA]) rfl rfl hfa]
      rw [runA_cons, stepA_abort_unlistened _ fn _ r rfl (by simp [initA])
        (by simp [initA])]
      rw [show runA (α := α) (β := β) (ε := ε) ⟨true, true⟩ fn _
        [.leadingSettle 0] = stepA ⟨true, true⟩ fn _ (.leadingSettle 0)
        from rfl]
      cases o with
      | ok v =>
        rw [stepA_leadingSettle_ok _ fn _ 0 c v (by simp [initA])]
        simp [initA, aoutcomeOf, prOutcome, hfa]
      | error e =>
        rw [stepA_leadingSettle_error _ fn _ 0 c e (by simp [initA])]
        simp [initA, aoutcomeOf, prOutcome, hfa]

/-- Witness for the amended C3 at concrete inputs: (i) with the signal
already aborted with reason 7, a call by caller 3 rejects with 7 and changes
nothing else; (ii) with the listener registered and callers 0 and 1 waiting
on a pending timer, an abort with reason 9 rejects both, cancels the timer,
and a subsequent timer event invokes nothing; (iii) the leading caller 0
still resolves with its own producer value 5 despite an abort right after
its invocation started. -/
theorem c3_abort_semantics_amended_witness :
    stepA ⟨false, true⟩
        (fun n : Nat => ProducerResult.asyncOut (Except.ok n : Except Nat Nat))
        ({ initA with signalAborted := some 7 } : StateA Nat Nat Nat)
        (.call 3 1) =
      { (initA : StateA Nat Nat Nat) with
          signalAborted := some 7
          settled := [(3, .rejected 7)] } ∧
    (stepA ⟨false, true⟩
        (fun n : Nat => ProducerResult.asyncOut (Except.ok n : Except Nat Nat))
        ({ initA with
            promiseHandlers := [0, 1]
            timeoutArgs := some 4
            listenerAttached := true } : StateA Nat Nat Nat)
        (.abort 9)).settled = [(0, .rejected 9), (1, .rejected 9)] ∧
    (stepA ⟨false, true⟩
        (fun n : Nat => ProducerResult.asyncOut (Except.ok n : Except Nat Nat))
        ({ initA with
            promiseHandlers := [0, 1]
            timeoutArgs := some 4
            listenerAttached := true } : StateA Nat Nat Nat)
        (.abort 9)).timeoutArgs = none ∧
    (runA ⟨false, true⟩
        (fun n : Nat => ProducerResult.asyncOut (Except.ok n : Except Nat Nat))
        (stepA ⟨false, true⟩
          (fun n : Nat =>
            ProducerResult.asyncOut (Except.ok n : Except Nat Nat))
          ({ initA with
              promiseHandlers := [0, 1]
              timeoutArgs := some 4
              listenerAttached := true } : StateA Nat Nat Nat)
          (.abort 9)) [.timerFire]).invocations = [] ∧
    (runA ⟨true, true⟩
        (fun n : Nat => ProducerResult.asyncOut (Except.ok n : Except Nat Nat))
        initA [.call 0 5, .abort 9, .leadingSettle 0]).settled =
      [(0, .resolved (some 5))] := by
  have hI := (c3_abort_semantics_amended
    (fun n : Nat => ProducerResult.asyncOut (Except.ok n : Except Nat Nat))).1
    ⟨false, true⟩ ({ initA with signalAborted := some 7 }) 3 1 7 rfl rfl
  have hII := (c3_abort_semantics_amended
    (fun n : Nat => ProducerResult.asyncOut (Except.ok n : Except Nat Nat))).2.1
    ⟨false, true⟩
    ({ initA with
        promiseHandlers := [0, 1]
        timeoutArgs := some 4
        listenerAttached := true }) 9 rfl rfl rfl
  have hIII := (c3_abort_semantics_amended
    (fun n : Nat =>
      ProducerResult.asyncOut (Except.ok n : Except Nat Nat))).2.2 0 5 9
  refine ⟨hI.trans (by rfl), hII.1 ▸ rfl, hII.1 ▸ rfl, ?_, hIII.trans (by rfl)⟩
  rw [hII.2 [.timerFire], hII.1]
  rfl

/-! ## Claim C10 (corrected): behaviour after the signal has fired -/

/-- Counterexample to claim C10 as stated, at a concrete input.  The claim
says that after the signal has fired the producer is never invoked again.
In the listener-stripping race (see `c3_counterexample_listener_stripping`),
the abort leaves caller 1's timer pending, and that timer later invokes the
producer: the invocation log grows from `[10]` to `[10, 20]` after the
signal has aborted. -/
theorem c10_counterexample_producer_runs_after_abort :
    (runA ⟨false, true⟩
        (fun _ : Nat => ProducerResult.asyncOut (Except.ok 1 : Except Nat Nat))
        initA [.call 0 10, .timerFire, .call 1 20, .delayedSettle 0,
          .abort 7]).signalAborted = some 7 ∧
    (runA ⟨false, true⟩
        (fun _ : Nat => ProducerResult.asyncOut (Except.ok 1 : Except Nat Nat))
        initA [.call 0 10, .timerFire, .call 1 20, .delayedSettle 0,
          .abort 7]).invocations = [10] ∧
    (runA ⟨false, true⟩
        (fun _ : Nat => ProducerResult.asyncOut (Except.ok 1 : Except Nat Nat))
        initA [.call 0 10, .timerFire, .call 1 20, .delayedSettle 0, .abort 7,
          .timerFire]).invocations = [10, 20] := by
  decide

/-- Claim C10 as amended.  Once the attached abort signal has fired:
(a) every subsequent call, in any later burst and from any state, rejects
immediately within the call with the signal's abort reason, changes nothing
else, and in particular never starts a producer invocation; and
(b) whenever no non-leading timer is pending at (or after) the abort — in
particular whenever `onAbort`'s registration was intact, since it cancels
the timer — no sequence of further events ever invokes the producer again,
and the signal remains aborted forever.  (The listener-stripping race can
leave a pending non-leading timer that still runs the producer once; that is
the single exception, exhibited by the counterexample.) -/
theorem c10_aborted_calls_always_rejected (cfg : ConfigA)
    (fn : α → ProducerResult β ε) :
    (∀ (s : StateA α β ε) (r : ε) (c : Nat) (a : α),
      cfg.hasSignal = true → s.signalAborted = some r →
      stepA cfg fn s (.call c a) =
        { s with settled := s.settled ++ [(c, .rejected r)] }) ∧
    (∀ (s : StateA α β ε) (r : ε) (es : List (EventA α ε)),
      cfg.hasSignal = true → s.signalAborted = some r →
      (s.timeoutArgs.isSome = true → cfg.before = true) →
      (runA cfg fn s es).invocations = s.invocations ∧
      (runA cfg fn s es).signalAborted = some r) := by
  refine ⟨fun s r c a hsig hab => stepA_call_aborted cfg fn s c a r hsig hab,
    fun s r es hsig hab hq => ?_⟩
  have h := runA_aborted_frozen cfg fn hsig es s r hab hq
  exact ⟨h.1, h.2.1⟩

/-- Witness for the amended C10 at a concrete input: from an aborted state
with no pending timer, a call by caller 2 rejects with the reason 7, and
running further events (a call and a timer event) never invokes the
producer. -/
theorem c10_aborted_calls_always_rejected_witness :
    stepA ⟨false, true⟩
        (fun n : Nat => ProducerResult.asyncOut (Except.ok n : Except Nat Nat))
        ({ initA with signalAborted := some 7 } : StateA Nat Nat Nat)
        (.call 2 8) =
      { (initA : StateA Nat Nat Nat) with
          signalAborted := some 7
          settled := [(2, .rejected 7)] } ∧
    (runA ⟨false, true⟩
        (fun n : Nat => ProducerResult.asyncOut (Except.ok n : Except Nat Nat))
        ({ initA with signalAborted := some 7 } : StateA Nat Nat Nat)
        [.call 1 6, .timerFire]).invocations = [] ∧
    (runA ⟨false, true⟩
        (fun n : Nat => ProducerResult.asyncOut (Except.ok n : Except Nat Nat))
        ({ initA with signalAborted := some 7 } : StateA Nat Nat Nat)
        [.call 1 6, .timerFire]).signalAborted = some 7 := by
  have h := c10_aborted_calls_always_rejected ⟨false, true⟩
    (fun n : Nat => ProducerResult.asyncOut (Except.ok n : Except Nat Nat))
  have ha := h.1 ({ initA with signalAborted := some 7 }) 7 2 8 rfl rfl
  have hb := h.2 ({ initA with signalAborted := some 7 }) 7
    [.call 1 6, .timerFire] rfl rfl (fun hx => by simp [initA] at hx)
  exact ⟨by rw [ha]; rfl, by rw [hb.1]; rfl, hb.2⟩

/-! ## Producer failure propagation -/

/-- Claim C8: producer failures are normalized and propagated verbatim.
(a) Windowed debouncer: when the invocation for a burst fails with `e` —
whether the producer throws synchronously (`throws e`) or rejects
asynchronously (`asyncOut (error e)`), i.e. whenever its delivered outcome
`prOutcome` is `error e` — every caller of that burst rejects with that very
same `e`.
(b) Coalescer, after mode: when the initial invocation fails with `e1`, its
sharers reject with exactly `e1` while the queued follow-up still runs and
its callers settle with the follow-up's own outcome, unaffected by `e1`. -/
theorem c8_producer_failure_propagation :
    (∀ (b : Bool) (fn : α → ProducerResult β ε) (cs : List (Nat × α))
      (cN : Nat) (aN : α) (e : ε),
      prOutcome (fn aN) = .error e →
      (runA ⟨false, b⟩ fn initA
          (callsOf (cs ++ [(cN, aN)]) ++
            [.timerFire, .delayedSettle 0])).settled =
        (cs ++ [(cN, aN)]).map (fun p => (p.1, AOutcome.rejected e))) ∧
    (∀ (fnB : α → Except ε β) (c1 : Nat) (a1 : α) (qs : List (Nat × α))
      (cN : Nat) (aN : α) (e1 : ε),
      fnB a1 = .error e1 →
      (runB true fnB initB
          (.call c1 a1 :: (callsOfB (qs ++ [(cN, aN)]) ++
            [.settle, .settle]))).settled =
        (qs ++ [(cN, aN)]).map (fun p => (p.1, fnB aN)) ++
          [(c1, .error e1)]) := by
  constructor
  · intro b fn cs cN aN e he
    rw [runA_append,
      runA_calls_from_empty _ fn _ _ rfl (fun h => by simp at h) rfl]
    cases hfa : fn aN with
    | throws e' =>
      have he' : e' = e := by simpa [prOutcome, hfa] using he
      subst he'
      rw [runA_cons, stepA_timer_delayed_throws _ fn _ aN e'
        (by simp [lastArgOf_append_single]) rfl hfa]
      rw [show runA (α := α) (β := β) (ε := ε) ⟨false, b⟩ fn _
        [.delayedSettle 0] = stepA ⟨false, b⟩ fn _ (.delayedSettle 0)
        from rfl]
      rw [stepA_delayedSettle_noop _ fn _ 0 (by simp [initA])]
      simp [initA, Function.comp_def]
    | asyncOut o =>
      have ho : o = .error e := by simpa [prOutcome, hfa] using he
      subst ho
      rw [runA_cons, stepA_timer_delayed _ fn _ aN (.error e)
        (by simp [lastArgOf_append_single]) rfl hfa]
      rw [show runA (α := α) (β := β) (ε := ε) ⟨false, b⟩ fn _
        [.delayedSettle 0] = stepA ⟨false, b⟩ fn _ (.delayedSettle 0)
        from rfl]
      rw [stepA_delayedSettle _ fn _ 0 ((cs ++ [(cN, aN)]).map Prod.fst)
        (.error e) (by simp [initA])]
      simp [initA, aoutcomeOf, Function.comp_def]
  · intro fnB c1 a1 qs cN aN e1 he
    have hcalls : runB true fnB initB
        (.call c1 a1 :: callsOfB (qs ++ [(cN, aN)])) =
        ({ current := some ⟨[c1], fnB a1, none⟩
           queued := some ⟨aN, (qs ++ [(cN, aN)]).map Prod.fst⟩
           settled := []
           invocations := [a1] } : StateB α β ε) := by
      rw [runB_cons, stepB_call_start true fnB _ c1 a1 rfl,
        runB_calls_queue fnB _ _ _ rfl, queuedFold_append_single]
      simp [initB, resolversOf]
    rw [show (EventB.call c1 a1 :: (callsOfB (qs ++ [(cN, aN)]) ++
        [EventB.settle, EventB.settle])) =
      (EventB.call c1 a1 :: callsOfB (α := α) (qs ++ [(cN, aN)])) ++
        [EventB.settle, EventB.settle] from by simp]
    rw [runB_append, hcalls, runB_cons,
      stepB_settle_launch true fnB _ ⟨[c1], fnB a1, none⟩
        ⟨aN, (qs ++ [(cN, aN)]).map Prod.fst⟩ rfl rfl rfl]
    rw [show runB (α := α) (β := β) (ε := ε) true fnB _ [.settle] =
      stepB true fnB _ .settle from rfl]
    rw [stepB_settle_finish_flight true fnB _ _ _ _ rfl rfl rfl]
    simp [he, Function.comp_def]

/-- Witness for C8 at concrete inputs.  (a) A producer that throws
synchronously with error 9 exactly on argument 5: a burst ending in
argument 5 rejects callers 0 and 1 with 9 — the synchronous throw lands in
the same failure channel.  (b) In after mode, the initial invocation on
argument 5 rejects with 9: its caller 0 rejects with 9 while the follow-up
callers 1 and 2 resolve with the follow-up's successful value 6. -/
theorem c8_producer_failure_propagation_witness :
    (runA ⟨false, false⟩
        (fun n : Nat =>
          if n == 5 then (ProducerResult.throws 9 : ProducerResult Nat Nat)
          else .asyncOut (.ok n))
        initA (callsOf ([(0, 4)] ++ [(1, 5)]) ++
          [.timerFire, .delayedSettle 0])).settled =
      [(0, .rejected 9), (1, .rejected 9)] ∧
    (runB true
        (fun n : Nat => if n == 5 then (.error 9 : Except Nat Nat) else .ok n)
        initB (.call 0 5 :: (callsOfB ([(1, 4)] ++ [(2, 6)]) ++
          [.settle, .settle]))).settled =
      [(1, .ok 6), (2, .ok 6), (0, .error 9)] := by
  have h := c8_producer_failure_propagation (α := Nat) (β := Nat) (ε := Nat)
  refine ⟨?_, ?_⟩
  · have ha := h.1 false
      (fun n : Nat =>
        if n == 5 then (ProducerResult.throws 9 : ProducerResult Nat Nat)
        else .asyncOut (.ok n)) [(0, 4)] 1 5 9 rfl
    exact ha.trans (by rfl)
  · have hb := h.2
      (fun n : Nat => if n == 5 then (.error 9 : Except Nat Nat) else .ok n)
      0 5 [(1, 4)] 2 6 9 rfl
    exact hb.trans (by rfl)

/-! ## Synchronous settlement (claim C9) -/

/-- Counterexample to claim C9 as stated: it is not true that the promise
returned to the caller never settles synchronously within the call that
created it.  With a signal attached and already aborted (reason 7), the call
step itself — the promise executor, src/index.js lines 28-33 — settles the
new caller's promise (caller 0 is rejected during the very call that created
its promise), so the settlement log changes within the call. -/
theorem c9_counterexample_sync_settlement :
    ¬ ((stepA ⟨false, true⟩
        (fun _ : Nat => ProducerResult.asyncOut (Except.ok 1 : Except Nat Nat))
        (runA ⟨false, true⟩
          (fun _ : Nat =>
            ProducerResult.asyncOut (Except.ok 1 : Except Nat Nat))
          initA [.abort 7]) (.call 0 1)).settled =
      (runA ⟨false, true⟩
        (fun _ : Nat => ProducerResult.asyncOut (Except.ok 1 : Except Nat Nat))
        initA [.abort 7]).settled) := by
  decide

/-- Claim C9 as amended: no call to either wrapped callable settles any
promise synchronously within the call that created it, except in exactly two
situations — a call made while the attached abort signal is already aborted
(rejected synchronously by the executor, lines 28-33), and a leading-edge
call whose producer throws synchronously (the async IIFE catches the throw
before its first suspension point and runs `reject(error)` inside the call,
lines 69-76).  Outside these, the settlement log is unchanged by the call
step, for every state — so settlement otherwise happens only in the
timer-fired, producer-settlement and abort callbacks, for every wait, the
zero-or-negative case included. -/
theorem c9_no_sync_settlement_amended :
    (∀ (cfg : ConfigA) (fn : α → ProducerResult β ε) (s : StateA α β ε)
      (c : Nat) (a : α),
      (cfg.hasSignal = true → s.signalAborted = none) →
      ((cfg.before && s.timeoutArgs.isNone) = true → ∀ e, fn a ≠ .throws e) →
      (stepA cfg fn s (.call c a)).settled = s.settled) ∧
    (∀ (after : Bool) (fnB : α → Except ε β) (s : StateB α β ε) (c : Nat)
      (a : α), (stepB after fnB s (.call c a)).settled = s.settled) := by
  constructor
  · intro cfg fn s c a h1 h2
    have hab : (if cfg.hasSignal then s.signalAborted else none) = none := by
      cases hsig : cfg.hasSignal with
      | true => simpa using h1 hsig
      | false => simp
    by_cases hl : cfg.before = true ∧ s.timeoutArgs = none
    · cases hfa : fn a with
      | throws e =>
        exact absurd hfa (h2 (by simp [hl.1, hl.2]) e)
      | asyncOut o =>
        rw [stepA_call_leading_async cfg fn s c a o hab hl.1 hl.2 hfa]
    · have hlead : cfg.before = true → s.timeoutArgs.isSome = true := by
        intro hb
        cases hto : s.timeoutArgs with
        | none => exact absurd ⟨hb, hto⟩ hl
        | some x => simp
      rw [stepA_call_push cfg fn s c a hab hlead]
  · intro after fnB s c a
    cases hc : s.current with
    | none => simp [stepB, hc]
    | some cur =>
      cases hq : s.queued <;> cases after <;> simp [stepB, hc, hq]

/-- Witness for the amended C9 at concrete inputs: a first call to either
freshly wrapped callable — with a producer that does not throw
synchronously — settles nothing within the call. -/
theorem c9_no_sync_settlement_amended_witness :
    (stepA ⟨false, true⟩
      (fun n : Nat => ProducerResult.asyncOut (Except.ok n : Except Nat Nat))
      initA (.call 0 1)).settled = [] ∧
    (stepB false (fun n : Nat => (Except.ok n : Except Nat Nat))
      initB (.call 0 1)).settled = [] :=
  ⟨c9_no_sync_settlement_amended.1 ⟨false, true⟩ _ initA 0 1 (fun _ => rfl)
      (fun h => by simp at h),
    c9_no_sync_settlement_amended.2 false _ initB 0 1⟩

end PDebounce
